import Mathlib

/-!
Shallow embedding of the `hygrometry` Python module over exact real arithmetic.

Modelling conventions:
- Python floats are modelled as real numbers (`ℝ`); `math.exp` is `Real.exp`.
- Python raises `ZeroDivisionError` on division by zero and `ValueError` on
  `math.log` of a nonpositive argument.  Where a claim concerns those
  exceptions (`Td`, `dew`, ` mixing_ratio`) the embedded function returns an
  `Option`, with `none` standing for a raised exception; `pydiv` and `pylog`
  below model the two fallible primitives.  Division by a nonzero numeric
  literal (e.g. `/ 100.0`) cannot raise and is written with plain `/`.
- `float('nan')` appears only as the dew-point component of `Td`; it is
  modelled as the inner `Option` of that component (`none` = NaN), distinct
  from the outer `Option` that models exceptions.
- The while-loop of `calc_wb` has no bound in the source; the embedding adds
  an explicit fuel argument, `none` meaning the loop did not finish within
  the given fuel.  Exact real `exp` inside the loop body is total, and the
  loop body's division `Twguess + 243.5` is modelled with total real division
  (the claims under study never evaluate it at the singular point).
- `heat_index` uses `math.sqrt` only under `80 < tF < 112`, where its
  argument is positive, so total `Real.sqrt` is faithful there.
-/

namespace Hygrometry

/-- Python float division `a / b`: `none` models the `ZeroDivisionError`
raised when `b` is zero. -/
noncomputable def pydiv (a b : ℝ) : Option ℝ :=
  if b = 0 then none else some (a / b)

/-- Python `math.log x`: `none` models the `ValueError` (math domain error)
raised when `x ≤ 0`. -/
noncomputable def pylog (x : ℝ) : Option ℝ :=
  if 0 < x then some (Real.log x) else none

/-- Source `conv_F2C`: `(f - 32.0) * 0.555556`. -/
def conv_F2C (f : ℝ) : ℝ := (f - 32.0) * 0.555556

/-- Source `conv_C2F`: `c * 1.8 + 32.0`. -/
def conv_C2F (c : ℝ) : ℝ := c * 1.8 + 32.0

/-- Source `Td`.  Returns `[es, V, Td]`: saturation vapor pressure,
actual vapor pressure, dew point.  The outer `Option` models a raised
exception (division by zero when `Tc + 243.5 = 0` or `17.67 - l = 0`, log of
a nonpositive when `V / 6.112 ≤ 0`); the inner `Option` of the third
component models the `float('nan')` produced when `V = 0`. -/
noncomputable def Td (Tc RH : ℝ) : Option (ℝ × ℝ × Option ℝ) :=
  (pydiv (17.67 * Tc) (Tc + 243.5)).bind fun q =>
    let es := 6.112 * Real.exp q
    let V := es * RH / 100
    if V ≠ 0 then
      (pylog (V / 6.112)).bind fun l =>
        (pydiv (243.5 * l) (17.67 - l)).bind fun td =>
          some (es, V, some td)
    else
      some (es, V, (none : Option ℝ))

/-- The local `Ewguess` of `calc_wb`'s loop body:
`6.112 * exp((17.67 * Twguess) / (Twguess + 243.5))`. -/
noncomputable def Ewguess (Tw : ℝ) : ℝ :=
  6.112 * Real.exp ((17.67 * Tw) / (Tw + 243.5))

/-- The local `Eguess` of `calc_wb`'s loop body:
`Ewguess - MBpressure * (Ctemp - Twguess) * 0.00066 * (1.0 + 0.00115 * Twguess)`. -/
noncomputable def Eguess (Ctemp MBpressure Tw : ℝ) : ℝ :=
  Ewguess Tw - MBpressure * (Ctemp - Tw) * 0.00066 * (1.0 + 0.00115 * Tw)

/-- Source `calc_wb`, with a fuel argument bounding the number of
iterations of the unbounded `while` loop (`none` = fuel exhausted while the
loop was still running).  Arguments in source order:
`Edifference, Twguess, Ctemp, MBpressure, E2, previoussign, incr`. -/
noncomputable def calc_wb : ℕ → ℝ → ℝ → ℝ → ℝ → ℝ → ℝ → ℝ → Option ℝ
  | 0, Edifference, Twguess, _, _, _, _, _ =>
      if |Edifference| ≤ 0.0005 then some Twguess else none
  | Nat.succ fuel, Edifference, Twguess, Ctemp, MBpressure, E2, previoussign, incr =>
      if |Edifference| ≤ 0.0005 then some Twguess
      else
        let Ed := E2 - Eguess Ctemp MBpressure Twguess
        if |Ed| < 0.0005 then some Twguess
        else
          let cursign : ℝ := if Ed < 0 then -1 else 1
          let s := if cursign ≠ previoussign then cursign else previoussign
          let i := if cursign ≠ previoussign then incr / 10 else incr
          calc_wb fuel Ed (Twguess + i * s) Ctemp MBpressure E2 s i

/-- Source `calc_sWB`: clamp `RH ≤ 0` to `0`, compute the vapor
pressure triplet, and run the solver from
`calc_wb(1., 0., Tc, P, V, 1, 10.)`. -/
noncomputable def calc_sWB (fuel : ℕ) (Tc RH P : ℝ) : Option ℝ :=
  let RH' := if RH ≤ 0 then (0 : ℝ) else RH
  (Td Tc RH').bind fun t => calc_wb fuel 1 0 Tc P t.2.1 1 10

/-- Source `humidity_adjust_temp`.  The two divisions are by
`243.12 + Tc_1` and `243.12 + Tc_2`; Python raises at the poles
`Tc = -243.12`, which the claims exclude, so total real division is used. -/
noncomputable def humidity_adjust_temp (RH_1 Tc_1 Tc_2 : ℝ) : ℝ :=
  RH_1 * Real.exp (4283.78 * (Tc_1 - Tc_2) / (243.12 + Tc_1) / (243.12 + Tc_2))

/-- Source `dew` (`Tn = 243.12`, `m = 17.62`):
`H = log(RH/100) + m*Tc/(Tn+Tc)`; `Td = Tn*H/(m-H)`.  `none` models the
exceptions raised by `math.log` on a nonpositive argument and by the two
divisions at their singular points. -/
noncomputable def dew (Tc RH : ℝ) : Option ℝ :=
  (pylog (RH / 100)).bind fun lg =>
    (pydiv (17.62 * Tc) (243.12 + Tc)).bind fun q =>
      let H := lg + q
      pydiv (243.12 * H) (17.62 - H)

/-- Source `absolute_humidity` (`Tn = 243.12`, `m = 17.62`,
`A = 6.112`); the divisor `273.15 + t` is modelled with total real
division (no claim concerns its pole). -/
noncomputable def absolute_humidity (t RH : ℝ) : ℝ :=
  216.7 * (RH / 100.0 * 6.112 * Real.exp (17.62 * t / (243.12 + t)) / (273.15 + t))

/-- Source ` mixing_ratio` (`Tn = 243.12`, `m = 17.62`, `A = 6.112`):
`e = RH/100*A*exp(m*t/(Tn+t))`; `r = 622*e/(p-e)`.  `none` models the
`ZeroDivisionError` raised when a denominator is zero. -/
noncomputable def mixing_ratio (t RH p : ℝ) : Option ℝ :=
  (pydiv (17.62 * t) (243.12 + t)).bind fun q =>
    let e := RH / 100 * 6.112 * Real.exp q
    pydiv (622 * e) (p - e)

/-- The vapor pressure `e` computed inside ` mixing_ratio` (and the value it
divides by `p - e`), for stating claims about degenerate pressures. -/
noncomputable def mrE (t RH : ℝ) : ℝ :=
  RH / 100 * 6.112 * Real.exp ((17.62 * t) / (243.12 + t))

/-- The NOAA regression polynomial of `heat_index` (in Fahrenheit), as a
function of `tF` and `RH`. -/
def heat_regression (tF RH : ℝ) : ℝ :=
  -42.379 + 2.04901523 * tF + 10.14333127 * RH - 0.22475541 * tF * RH
    - 0.00683783 * tF * tF - 0.05481717 * RH * RH + 0.00122874 * tF * tF * RH
    + 0.00085282 * tF * RH * RH - 0.00000199 * tF * tF * RH * RH

/-- Source `heat_index`: convert to Fahrenheit, apply the NOAA
regression, then the `if`/`elif` adjustment cascade, and convert back. -/
noncomputable def heat_index (t RH : ℝ) : ℝ :=
  let tF := conv_C2F t
  let HI := heat_regression tF RH
  let HI2 :=
    if RH < 13 ∧ tF > 80 ∧ tF < 112 then
      HI - ((13.0 - RH) / 4.0) * Real.sqrt ((17.0 - |tF - 95.0|) / 17.0)
    else if RH > 85 ∧ tF > 80 ∧ tF < 87 then
      HI + ((RH - 85.0) / 10.0) * ((87.0 - tF) / 5.0)
    else if tF < 80 then
      0.5 * (tF + 61.0 + (tF - 68.0) * 1.2 + RH * 0.094)
    else HI
  conv_F2C HI2

/-- The low-humidity correction band of the claim: `RH < 13` and
`80 < tF < 112`. -/
def lowHumidityBand (t RH : ℝ) : Prop :=
  RH < 13 ∧ 80 < conv_C2F t ∧ conv_C2F t < 112

/-- The high-humidity correction band of the claim: `RH > 85` and
`80 < tF < 87`. -/
def highHumidityBand (t RH : ℝ) : Prop :=
  85 < RH ∧ 80 < conv_C2F t ∧ conv_C2F t < 87

/-- The low-temperature band of the claim: `tF < 80`, where a simplified
linear formula replaces the regression entirely. -/
def lowTempBand (t : ℝ) : Prop :=
  conv_C2F t < 80

/-- The heat index as described by the claim: at most one of three correction
regimes is applied to the NOAA regression value — a subtractive low-humidity
adjustment, an additive high-humidity adjustment, or (when `tF < 80`) a
simplified linear formula that replaces the regression outright. -/
noncomputable def heat_index_claim (t RH : ℝ) : ℝ :=
  let tF := conv_C2F t
  let reg := heat_regression tF RH
  let correction :=
    if RH < 13 ∧ 80 < tF ∧ tF < 112 then
      -(((13.0 - RH) / 4.0) * Real.sqrt ((17.0 - |tF - 95.0|) / 17.0))
    else if 85 < RH ∧ 80 < tF ∧ tF < 87 then
      ((RH - 85.0) / 10.0) * ((87.0 - tF) / 5.0)
    else 0
  let HI :=
    if tF < 80 then 0.5 * (tF + 61.0 + (tF - 68.0) * 1.2 + RH * 0.094)
    else reg + correction
  conv_F2C HI

/-- The wet-bulb iteration exactly as claim C2 describes it: the loop runs
while `|Ediff| > 0.0005`; a non-converged iteration recomputes the residual,
derives `cursign` from its sign (`-1` if `Ediff < 0` else `+1`), divides
`incr` by 10 and adopts `cursign` as the new sign when it differs from the
previous sign (otherwise leaves both unchanged), and then updates `Tw` to
`Tw + incr * sign`. -/
noncomputable def claim_wb : ℕ → ℝ → ℝ → ℝ → ℝ → ℝ → ℝ → ℝ → Option ℝ
  | 0, Ediff, Tw, _, _, _, _, _ =>
      if |Ediff| > 0.0005 then none else some Tw
  | Nat.succ fuel, Ediff, Tw, Tc, P, E2, sgn, incr =>
      if |Ediff| > 0.0005 then
        let Ew := 6.112 * Real.exp ((17.67 * Tw) / (Tw + 243.5))
        let Eg := Ew - P * (Tc - Tw) * 0.00066 * (1.0 + 0.00115 * Tw)
        let Ed := E2 - Eg
        if |Ed| < 0.0005 then some Tw
        else
          let cursign : ℝ := if Ed < 0 then -1 else 1
          if cursign ≠ sgn then
            claim_wb fuel Ed (Tw + incr / 10 * cursign) Tc P E2 cursign (incr / 10)
          else
            claim_wb fuel Ed (Tw + incr * sgn) Tc P E2 sgn incr
      else some Tw

/-- The sign adopted by one non-converged iteration of `calc_wb`, given the
freshly computed residual `d` and the previous sign: `cursign = -1` if
`d < 0` else `1`, adopted when it differs from the previous sign. -/
noncomputable def wb_nextSign (d sgn : ℝ) : ℝ :=
  if (if d < 0 then (-1 : ℝ) else 1) ≠ sgn then (if d < 0 then (-1 : ℝ) else 1) else sgn

/-- The step size after one non-converged iteration of `calc_wb`: divided by
10 exactly when the sign flipped. -/
noncomputable def wb_nextIncr (d sgn incr : ℝ) : ℝ :=
  if (if d < 0 then (-1 : ℝ) else 1) ≠ sgn then incr / 10 else incr

/-- The iteration states `(Edifference, Twguess, previoussign, incr)` that
`calc_wb`'s loop visits when launched from `calc_sWB`'s initial state
`(1, 0, 1, 10)`, for convergence target `E2` at dry-bulb `Tc` and pressure
`P`.  `step` performs one non-converged iteration of the source loop: the
entry guard `|Ediff| > 0.0005` held, the freshly computed residual was not
within the `< 0.0005` break tolerance, and the state is updated by the
sign-flip rule and the `Tw + incr * sign` step. -/
inductive wbVisits (Tc P E2 : ℝ) : ℝ → ℝ → ℝ → ℝ → Prop
  | init : wbVisits Tc P E2 1 0 1 10
  | step (Ed Tw sgn incr : ℝ) :
      wbVisits Tc P E2 Ed Tw sgn incr →
      ¬ (|Ed| ≤ 0.0005) →
      ¬ (|E2 - Eguess Tc P Tw| < 0.0005) →
      wbVisits Tc P E2 (E2 - Eguess Tc P Tw)
        (Tw + wb_nextIncr (E2 - Eguess Tc P Tw) sgn incr *
          wb_nextSign (E2 - Eguess Tc P Tw) sgn)
        (wb_nextSign (E2 - Eguess Tc P Tw) sgn)
        (wb_nextIncr (E2 - Eguess Tc P Tw) sgn incr)

/-- Unfolding equation for `calc_wb` at fuel `0`. -/
theorem calc_wb_zero (Ed Tw Tc P E2 s i : ℝ) :
    calc_wb 0 Ed Tw Tc P E2 s i = if |Ed| ≤ 0.0005 then some Tw else none := rfl

/-- Unfolding equation for `calc_wb` at successor fuel, phrased with the
named state-update functions ` wb_nextSign` and ` wb_nextIncr`. -/
theorem calc_wb_succ_upd (fuel : ℕ) (Ed Tw Tc P E2 sgn incr : ℝ) :
    calc_wb (fuel + 1) Ed Tw Tc P E2 sgn incr =
      if |Ed| ≤ 0.0005 then some Tw
      else if |E2 - Eguess Tc P Tw| < 0.0005 then some Tw
      else
        calc_wb fuel (E2 - Eguess Tc P Tw)
          (Tw + wb_nextIncr (E2 - Eguess Tc P Tw) sgn incr *
            wb_nextSign (E2 - Eguess Tc P Tw) sgn)
          Tc P E2 (wb_nextSign (E2 - Eguess Tc P Tw) sgn)
          (wb_nextIncr (E2 - Eguess Tc P Tw) sgn incr) := rfl

/-- Unfolding equation for `calc_wb` at successor fuel, with the local
bindings of the loop body expanded. -/
theorem calc_wb_succ (fuel : ℕ) (Ed Tw Tc P E2 sgn incr : ℝ) :
    calc_wb (fuel + 1) Ed Tw Tc P E2 sgn incr =
      if |Ed| ≤ 0.0005 then some Tw
      else if |E2 - Eguess Tc P Tw| < 0.0005 then some Tw
      else
        calc_wb fuel (E2 - Eguess Tc P Tw)
          (Tw +
            (if (if E2 - Eguess Tc P Tw < 0 then (-1 : ℝ) else 1) ≠ sgn then incr / 10
              else incr) *
            (if (if E2 - Eguess Tc P Tw < 0 then (-1 : ℝ) else 1) ≠ sgn then
              (if E2 - Eguess Tc P Tw < 0 then (-1 : ℝ) else 1) else sgn))
          Tc P E2
          (if (if E2 - Eguess Tc P Tw < 0 then (-1 : ℝ) else 1) ≠ sgn then
            (if E2 - Eguess Tc P Tw < 0 then (-1 : ℝ) else 1) else sgn)
          (if (if E2 - Eguess Tc P Tw < 0 then (-1 : ℝ) else 1) ≠ sgn then incr / 10
            else incr) := rfl

/-- Unfolding equation for `claim_wb` at fuel `0`. -/
theorem claim_wb_zero (Ed Tw Tc P E2 s i : ℝ) :
    claim_wb 0 Ed Tw Tc P E2 s i = if |Ed| > 0.0005 then none else some Tw := rfl

/-- Unfolding equation for `claim_wb` at successor fuel, with the local
bindings of the loop body expanded. -/
theorem claim_wb_succ (fuel : ℕ) (Ed Tw Tc P E2 sgn incr : ℝ) :
    claim_wb (fuel + 1) Ed Tw Tc P E2 sgn incr =
      if |Ed| > 0.0005 then
        if |E2 - (6.112 * Real.exp ((17.67 * Tw) / (Tw + 243.5)) -
            P * (Tc - Tw) * 0.00066 * (1.0 + 0.00115 * Tw))| < 0.0005 then some Tw
        else
          if (if E2 - (6.112 * Real.exp ((17.67 * Tw) / (Tw + 243.5)) -
              P * (Tc - Tw) * 0.00066 * (1.0 + 0.00115 * Tw)) < 0 then (-1 : ℝ) else 1) ≠ sgn then
            claim_wb fuel
              (E2 - (6.112 * Real.exp ((17.67 * Tw) / (Tw + 243.5)) -
                P * (Tc - Tw) * 0.00066 * (1.0 + 0.00115 * Tw)))
              (Tw + incr / 10 *
                (if E2 - (6.112 * Real.exp ((17.67 * Tw) / (Tw + 243.5)) -
                  P * (Tc - Tw) * 0.00066 * (1.0 + 0.00115 * Tw)) < 0 then (-1 : ℝ) else 1))
              Tc P E2
              (if E2 - (6.112 * Real.exp ((17.67 * Tw) / (Tw + 243.5)) -
                P * (Tc - Tw) * 0.00066 * (1.0 + 0.00115 * Tw)) < 0 then (-1 : ℝ) else 1)
              (incr / 10)
          else
            claim_wb fuel
              (E2 - (6.112 * Real.exp ((17.67 * Tw) / (Tw + 243.5)) -
                P * (Tc - Tw) * 0.00066 * (1.0 + 0.00115 * Tw)))
              (Tw + incr * sgn) Tc P E2 sgn incr
      else some Tw := rfl

/-- On the physical domain `Tc > -243.5` the Magnus exponent of `Td` stays
strictly below `17.67`. -/
theorem td_exponent_lt (Tc : ℝ) (h : -243.5 < Tc) :
    (17.67 * Tc) / (Tc + 243.5) < 17.67 := by
  have hd : (0 : ℝ) < Tc + 243.5 := by linarith
  rw [div_lt_iff₀ hd]
  nlinarith

/-- Evaluation of `Td` on the nondegenerate domain `Tc > -243.5`,
`0 < RH ≤ 100`: no exception is raised and the full triple is produced. -/
theorem Td_eval (Tc RH : ℝ) (h1 : -243.5 < Tc) (h2 : 0 < RH) (h3 : RH ≤ 100) :
    Td Tc RH = some (6.112 * Real.exp ((17.67 * Tc) / (Tc + 243.5)),
      6.112 * Real.exp ((17.67 * Tc) / (Tc + 243.5)) * RH / 100,
      some ((243.5 *
          Real.log (6.112 * Real.exp ((17.67 * Tc) / (Tc + 243.5)) * RH / 100 / 6.112)) /
        (17.67 -
          Real.log (6.112 * Real.exp ((17.67 * Tc) / (Tc + 243.5)) * RH / 100 / 6.112)))) := by
  have hd0 : Tc + 243.5 ≠ 0 := ne_of_gt (by linarith)
  have hV : 0 < 6.112 * Real.exp ((17.67 * Tc) / (Tc + 243.5)) * RH / 100 := by positivity
  have harg : 6.112 * Real.exp ((17.67 * Tc) / (Tc + 243.5)) * RH / 100 / 6.112
      = Real.exp ((17.67 * Tc) / (Tc + 243.5)) * (RH / 100) := by ring
  have hlog : Real.log (6.112 * Real.exp ((17.67 * Tc) / (Tc + 243.5)) * RH / 100 / 6.112)
      = (17.67 * Tc) / (Tc + 243.5) + Real.log (RH / 100) := by
    rw [harg, Real.log_mul (Real.exp_ne_zero _) (by positivity), Real.log_exp]
  have hlog2 : Real.log (RH / 100) ≤ 0 :=
    Real.log_nonpos (by positivity) (by linarith)
  have hne : 17.67 -
      Real.log (6.112 * Real.exp ((17.67 * Tc) / (Tc + 243.5)) * RH / 100 / 6.112) ≠ 0 := by
    rw [hlog]
    have := td_exponent_lt Tc h1
    apply ne_of_gt
    linarith
  simp only [Td, pydiv, pylog]
  rw [if_neg hd0]
  simp only [Option.some_bind]
  rw [if_pos (ne_of_gt hV)]
  rw [if_pos (show 0 < 6.112 * Real.exp ((17.67 * Tc) / (Tc + 243.5)) * RH / 100 / 6.112 by
    positivity)]
  simp only [Option.some_bind]
  rw [if_neg hne]
  simp only [Option.some_bind]

/-- Evaluation of `Td` at `RH = 0` away from the pole: the guarded branch
yields the NaN dew-point component (inner `none`). -/
theorem Td_nan_eval (Tc : ℝ) (h : Tc + 243.5 ≠ 0) :
    Td Tc 0 = some (6.112 * Real.exp ((17.67 * Tc) / (Tc + 243.5)), 0, none) := by
  have hz : 6.112 * Real.exp ((17.67 * Tc) / (Tc + 243.5)) * 0 / 100 = 0 := by ring
  simp only [Td, pydiv, pylog]
  rw [if_neg h]
  simp only [Option.some_bind]
  rw [if_neg (by rw [hz]; exact fun hc => hc rfl)]
  rw [hz]

/-- Claim C4 counterexample: `Td` is not total.  `Td(0, -100)` raises a
`ValueError` (log of `-1`), `Td(-243.5, 50)` raises a `ZeroDivisionError`
(the Magnus pole), and below that pole `Td(-500, RH)` hits the second
division's singularity `17.67 - l = 0` at `RH = 100·exp(-4302.645/256.5)`,
which lies inside `(0, 100)`. -/
theorem claim4_counterexample :
    Td 0 (-100) = none ∧ Td (-243.5) 50 = none ∧
      Td (-500) (100 * Real.exp (-(4302.645 / 256.5))) = none := by
  refine ⟨?_, ?_, ?_⟩
  · have hq : ((17.67 : ℝ) * 0) / (0 + 243.5) = 0 := by norm_num
    simp only [Td, pydiv, pylog]
    rw [if_neg (by norm_num : ¬ ((0 : ℝ) + 243.5 = 0))]
    simp only [Option.some_bind]
    rw [hq, Real.exp_zero]
    rw [if_pos (by norm_num : (6.112 : ℝ) * 1 * (-100) / 100 ≠ 0)]
    rw [if_neg (by norm_num : ¬ ((0 : ℝ) < 6.112 * 1 * (-100) / 100 / 6.112))]
    simp only [Option.none_bind]
  · simp only [Td, pydiv]
    rw [if_pos (by norm_num : (-243.5 : ℝ) + 243.5 = 0)]
    simp only [Option.none_bind]
  · have hq : ((17.67 : ℝ) * (-500)) / (-500 + 243.5) = 8835 / 256.5 := by norm_num
    simp only [Td, pydiv, pylog]
    rw [if_neg (by norm_num : ¬ ((-500 : ℝ) + 243.5 = 0))]
    simp only [Option.some_bind]
    rw [hq]
    have hVpos : (0 : ℝ) <
        6.112 * Real.exp (8835 / 256.5) * (100 * Real.exp (-(4302.645 / 256.5))) / 100 := by
      positivity
    rw [if_pos (ne_of_gt hVpos)]
    rw [if_pos (show (0 : ℝ) <
        6.112 * Real.exp (8835 / 256.5) * (100 * Real.exp (-(4302.645 / 256.5))) / 100 / 6.112 by
      positivity)]
    simp only [Option.some_bind]
    have hlog : Real.log
        (6.112 * Real.exp (8835 / 256.5) * (100 * Real.exp (-(4302.645 / 256.5))) / 100 / 6.112)
        = 8835 / 256.5 + -(4302.645 / 256.5) := by
      have h1 : (6.112 : ℝ) * Real.exp (8835 / 256.5) *
          (100 * Real.exp (-(4302.645 / 256.5))) / 100 / 6.112
          = Real.exp (8835 / 256.5) * Real.exp (-(4302.645 / 256.5)) := by ring
      rw [h1, ← Real.exp_add, Real.log_exp]
    rw [if_pos (by rw [hlog]; norm_num)]
    simp only [Option.none_bind]

/-- Claim C4, amended: `Td` is total on the documented domain — for every
`Tc > -243.5` and `0 ≤ RH ≤ 100` it returns a triple without raising. -/
theorem claim4_theorem (Tc RH : ℝ) (h1 : -243.5 < Tc) (h2 : 0 ≤ RH) (h3 : RH ≤ 100) :
    ∃ v, Td Tc RH = some v := by
  rcases eq_or_lt_of_le h2 with h0 | hpos
  · subst h0
    exact ⟨_, Td_nan_eval Tc (ne_of_gt (by linarith))⟩
  · exact ⟨_, Td_eval Tc RH h1 hpos h3⟩

/-- Witness for claim C4 at `Tc = 20`, `RH = 50`. -/
theorem claim4_witness : ∃ v, Td 20 50 = some v :=
  claim4_theorem 20 50 (by norm_num) (by norm_num) (by norm_num)

/-- Claim C5 counterexample: at the Magnus pole `Tc = -243.5` the call
raises (`Td(-243.5, 60) = none`), and below the pole the in-range humidity
`RH = 100·exp(-4302.645/756.5) ≈ 0.34` makes the dew-point division raise,
so "for every Tc" fails. -/
theorem claim5_counterexample :
    Td (-243.5) 60 = none ∧ Td (-1000) (100 * Real.exp (-(4302.645 / 756.5))) = none := by
  refine ⟨?_, ?_⟩
  · simp only [Td, pydiv]
    rw [if_pos (by norm_num : (-243.5 : ℝ) + 243.5 = 0)]
    simp only [Option.none_bind]
  · have hq : ((17.67 : ℝ) * (-1000)) / (-1000 + 243.5) = 17670 / 756.5 := by norm_num
    simp only [Td, pydiv, pylog]
    rw [if_neg (by norm_num : ¬ ((-1000 : ℝ) + 243.5 = 0))]
    simp only [Option.some_bind]
    rw [hq]
    have hVpos : (0 : ℝ) <
        6.112 * Real.exp (17670 / 756.5) * (100 * Real.exp (-(4302.645 / 756.5))) / 100 := by
      positivity
    rw [if_pos (ne_of_gt hVpos)]
    rw [if_pos (show (0 : ℝ) <
        6.112 * Real.exp (17670 / 756.5) * (100 * Real.exp (-(4302.645 / 756.5))) / 100 / 6.112 by
      positivity)]
    simp only [Option.some_bind]
    have hlog : Real.log
        (6.112 * Real.exp (17670 / 756.5) * (100 * Real.exp (-(4302.645 / 756.5))) / 100 / 6.112)
        = 17670 / 756.5 + -(4302.645 / 756.5) := by
      have h1 : (6.112 : ℝ) * Real.exp (17670 / 756.5) *
          (100 * Real.exp (-(4302.645 / 756.5))) / 100 / 6.112
          = Real.exp (17670 / 756.5) * Real.exp (-(4302.645 / 756.5)) := by ring
      rw [h1, ← Real.exp_add, Real.log_exp]
    rw [if_pos (by rw [hlog]; norm_num)]
    simp only [Option.none_bind]

/-- Claim C5, amended: for every `Tc > -243.5` and `0 < RH ≤ 100`, `Td`
returns a triple whose saturation vapor pressure is strictly positive and
whose actual vapor pressure `V` satisfies `0 ≤ V ≤ es`. -/
theorem claim5_theorem (Tc RH : ℝ) (h1 : -243.5 < Tc) (h2 : 0 < RH) (h3 : RH ≤ 100) :
    ∃ es V d, Td Tc RH = some (es, V, d) ∧ 0 < es ∧ 0 ≤ V ∧ V ≤ es := by
  refine ⟨_, _, _, Td_eval Tc RH h1 h2 h3, by positivity, by positivity, ?_⟩
  have hes : 0 < 6.112 * Real.exp ((17.67 * Tc) / (Tc + 243.5)) := by positivity
  have h4 := mul_le_mul_of_nonneg_left h3 (le_of_lt hes)
  linarith

/-- Witness for claim C5 at `Tc = 30`, `RH = 80`. -/
theorem claim5_witness :
    ∃ es V d, Td 30 80 = some (es, V, d) ∧ 0 < es ∧ 0 ≤ V ∧ V ≤ es :=
  claim5_theorem 30 80 (by norm_num) (by norm_num) (by norm_num)

/-- Claim C9 counterexample: at the Magnus pole `Tc = -243.5` the call with
`RH = 0` raises a `ZeroDivisionError` before ever computing the dew point,
so "for every Tc" fails. -/
theorem claim9_counterexample : Td (-243.5) 0 = none := by
  simp only [Td, pydiv]
  rw [if_pos (by norm_num : (-243.5 : ℝ) + 243.5 = 0)]
  simp only [Option.none_bind]

/-- Claim C9, amended: for every `Tc ≠ -243.5`, a call with zero actual
vapor pressure (equivalently `RH = 0`) returns the NaN dew-point sentinel
(the inner `none`) rather than failing. -/
theorem claim9_theorem (Tc RH : ℝ) (h1 : Tc ≠ -243.5) (h2 : RH = 0) :
    ∃ es, Td Tc RH = some (es, 0, none) := by
  subst h2
  exact ⟨_, Td_nan_eval Tc (fun hc => h1 (by linarith))⟩

/-- Witness for claim C9 at `Tc = 25`. -/
theorem claim9_witness : ∃ es, Td 25 0 = some (es, 0, none) :=
  claim9_theorem 25 0 (by norm_num) rfl

/-- Claim C3 counterexample: `dew(25, 0)` does not return NaN or infinity —
Python's `math.log(0.0)` raises a `ValueError`, modelled here as `none`. -/
theorem claim3_counterexample : dew 25 0 = none := by
  simp only [dew, pylog]
  rw [if_neg (by norm_num : ¬ ((0 : ℝ) < 0 / 100))]
  simp only [Option.none_bind]

/-- Claim C3, amended: the degenerate inputs raise exceptions instead of
returning NaN/Inf — `dew` raises on `RH ≤ 0` (log of a nonpositive), `Td`
raises on `RH < 0` (its `V = 0` case is guarded), ` mixing_ratio` raises a
`ZeroDivisionError` at `p = e`, and for `p < e` (with `e > 0`) it returns a
negative, physically meaningless, finite value. -/
theorem claim3_theorem (Tc1 RH1 Tc2 RH2 t3 RH3 t4 RH4 p4 : ℝ)
    (h1 : RH1 ≤ 0) (h2a : Tc2 ≠ -243.5) (h2b : RH2 < 0)
    (h3 : 243.12 + t3 ≠ 0) (h4a : 243.12 + t4 ≠ 0) (h4b : 0 < RH4)
    (h4c : p4 < mrE t4 RH4) :
    dew Tc1 RH1 = none ∧ Td Tc2 RH2 = none ∧
      mixing_ratio t3 RH3 (mrE t3 RH3) = none ∧
      ∃ r, mixing_ratio t4 RH4 p4 = some r ∧ r < 0 := by
  refine ⟨?_, ?_, ?_, ?_⟩
  · simp only [dew, pylog]
    rw [if_neg (show ¬ ((0 : ℝ) < RH1 / 100) from not_lt.mpr (by linarith))]
    simp only [Option.none_bind]
  · have hd : Tc2 + 243.5 ≠ 0 := fun hc => h2a (by linarith)
    have hexp := Real.exp_pos ((17.67 * Tc2) / (Tc2 + 243.5))
    have hVneg : 6.112 * Real.exp ((17.67 * Tc2) / (Tc2 + 243.5)) * RH2 / 100 < 0 := by
      nlinarith
    simp only [Td, pydiv, pylog]
    rw [if_neg hd]
    simp only [Option.some_bind]
    rw [if_pos (ne_of_lt hVneg)]
    have harg : 6.112 * Real.exp ((17.67 * Tc2) / (Tc2 + 243.5)) * RH2 / 100 / 6.112 < 0 :=
      div_neg_of_neg_of_pos hVneg (by norm_num)
    rw [if_neg (not_lt.mpr (le_of_lt harg))]
    simp only [Option.none_bind]
  · simp only [ mixing_ratio, pydiv, mrE]
    rw [if_neg h3]
    simp only [Option.some_bind]
    rw [if_pos (show RH3 / 100 * 6.112 * Real.exp ((17.62 * t3) / (243.12 + t3)) -
        RH3 / 100 * 6.112 * Real.exp ((17.62 * t3) / (243.12 + t3)) = 0 from sub_self _)]
  · have he : 0 < mrE t4 RH4 := by
      unfold mrE
      exact mul_pos (mul_pos (div_pos h4b (by norm_num)) (by norm_num)) (Real.exp_pos _)
    simp only [ mixing_ratio, pydiv, mrE] at *
    rw [if_neg h4a]
    simp only [Option.some_bind]
    rw [if_neg (show ¬ (p4 - RH4 / 100 * 6.112 * Real.exp ((17.62 * t4) / (243.12 + t4)) = 0)
      from by intro hc; linarith)]
    refine ⟨_, rfl, ?_⟩
    exact div_neg_of_pos_of_neg (by linarith) (by linarith)

/-- Witness for claim C3 at `dew(25, -5)`, `Td(10, -50)`,
` mixing_ratio(30, 50, e)` and ` mixing_ratio(30, 80, 0)`. -/
theorem claim3_witness :
    dew 25 (-5) = none ∧ Td 10 (-50) = none ∧
      mixing_ratio 30 50 (mrE 30 50) = none ∧
      ∃ r, mixing_ratio 30 80 0 = some r ∧ r < 0 :=
  claim3_theorem 25 (-5) 10 (-50) 30 50 30 80 0 (by norm_num) (by norm_num)
    (by norm_num) (by norm_num) (by norm_num) (by norm_num)
    (by unfold mrE; positivity)

/-- Claim C6 counterexample: the round trip `conv_F2C (conv_C2F x)` misses
`x` by `8e-5 > 1e-5` at `x = 100`, and is exactly `x` at `x = 0`; both
refute the claim that every temperature is recovered within `≈1e-5` yet
never exactly. -/
theorem claim6_counterexample :
    ¬ (|conv_F2C (conv_C2F 100) - 100| ≤ 0.00001) ∧
      conv_F2C (conv_C2F 0) = 0 := by
  constructor
  · intro hc
    rw [show conv_F2C (conv_C2F 100) - 100 = 1 / 12500 by
      norm_num [conv_F2C, conv_C2F]] at hc
    rw [abs_of_pos (by norm_num : (0 : ℝ) < 1 / 12500)] at hc
    norm_num at hc
  · norm_num [conv_F2C, conv_C2F]

/-- Claim C6, amended: in exact arithmetic the round trip satisfies
`conv_F2C (conv_C2F x) = 1.0000008 * x` (because `1.8 * 0.555556 =
1.0000008`), so it is exact precisely at `x = 0` and within `1e-5` of `x`
precisely when `|x| ≤ 12.5`. -/
theorem claim6_theorem (x : ℝ) :
    conv_F2C (conv_C2F x) = 1.0000008 * x ∧
      (conv_F2C (conv_C2F x) = x ↔ x = 0) ∧
      (|conv_F2C (conv_C2F x) - x| ≤ 0.00001 ↔ |x| ≤ 12.5) := by
  have h : conv_F2C (conv_C2F x) = 1.0000008 * x := by
    unfold conv_F2C conv_C2F; ring
  refine ⟨h, ?_, ?_⟩
  · rw [h]
    constructor
    · intro hx; nlinarith
    · intro hx; rw [hx]; ring
  · rw [h]
    have h2 : (1.0000008 : ℝ) * x - x = 0.0000008 * x := by ring
    rw [h2]
    rw [abs_mul, abs_of_pos (by norm_num : (0.0000008 : ℝ) > 0)]
    constructor
    · intro hx; nlinarith
    · intro hx; nlinarith

/-- Claim C8: `calc_sWB` clamps any `RH ≤ 0` to `0` before computing the
vapor pressure and running the solver, so it agrees with the call at
`RH = 0`. -/
theorem claim8_theorem (fuel : ℕ) (Tc RH P : ℝ) (h : RH ≤ 0) :
    calc_sWB fuel Tc RH P = calc_sWB fuel Tc 0 P := by
  simp only [calc_sWB]
  rw [if_pos h, if_pos (le_refl (0 : ℝ))]

/-- Witness for claim C8 at `Tc = 5`, `RH = -3`, `P = 1000`, fuel `0`. -/
theorem claim8_witness :
    calc_sWB 0 5 (-3) 1000 = calc_sWB 0 5 0 1000 :=
  claim8_theorem 0 5 (-3) 1000 (by norm_num)

/-- Claim C2: the solver of the source (`calc_wb`, as invoked by
`calc_sWB`) coincides with the iteration described by the claim
(`claim_wb`): same `|Ediff| > 0.0005` loop guard, same `cursign` rule, same
sign-flip deceleration `incr / 10`, same step `Tw + incr * sign`, and the
initial state `Tw = 0`, `incr = 10`, `sign = +1`, `Ediff = 1`. -/
theorem claim2_theorem :
    (∀ fuel Ed Tw Tc P E2 sgn incr, calc_wb fuel Ed Tw Tc P E2 sgn incr =
        claim_wb fuel Ed Tw Tc P E2 sgn incr) ∧
      (∀ fuel Tc RH P, calc_sWB fuel Tc RH P =
        (Td Tc (if RH ≤ 0 then 0 else RH)).bind fun t =>
          claim_wb fuel 1 0 Tc P t.2.1 1 10) := by
  have main : ∀ fuel Ed Tw Tc P E2 sgn incr, calc_wb fuel Ed Tw Tc P E2 sgn incr =
      claim_wb fuel Ed Tw Tc P E2 sgn incr := by
    intro fuel
    induction fuel with
    | zero =>
      intro Ed Tw Tc P E2 sgn incr
      rw [calc_wb_zero, claim_wb_zero]
      rcases le_or_lt |Ed| 0.0005 with h | h
      · rw [if_pos h, if_neg (not_lt.mpr h)]
      · rw [if_neg (not_le.mpr h), if_pos h]
    | succ f ih =>
      intro Ed Tw Tc P E2 sgn incr
      rw [calc_wb_succ, claim_wb_succ]
      rcases le_or_lt |Ed| 0.0005 with h | h
      · rw [if_pos h, if_neg (not_lt.mpr h)]
      · rw [if_neg (not_le.mpr h), if_pos h]
        have hEg : Eguess Tc P Tw = 6.112 * Real.exp ((17.67 * Tw) / (Tw + 243.5)) -
            P * (Tc - Tw) * 0.00066 * (1.0 + 0.00115 * Tw) := rfl
        rw [← hEg]
        set d := E2 - Eguess Tc P Tw with hd
        rcases lt_or_le |d| 0.0005 with h2 | h2
        · rw [if_pos h2, if_pos h2]
        · rw [if_neg (not_lt.mpr h2), if_neg (not_lt.mpr h2)]
          set c : ℝ := if d < 0 then (-1 : ℝ) else 1 with hc
          by_cases hcs : c ≠ sgn
          · rw [if_pos hcs, if_pos hcs, if_pos hcs]
            exact ih _ _ _ _ _ _ _
          · rw [if_neg hcs, if_neg hcs, if_neg hcs]
            exact ih _ _ _ _ _ _ _
  refine ⟨main, ?_⟩
  intro fuel Tc RH P
  simp only [calc_sWB]
  cases hTd : Td Tc (if RH ≤ 0 then 0 else RH) with
  | none => simp only [Option.none_bind]
  | some t =>
    simp only [Option.some_bind]
    exact main fuel 1 0 Tc P t.2.1 1 10

/-- Any value produced by `calc_wb` from a state that the loop actually
visits either is that state's guess returned because the entry residual was
already within tolerance, or carries a vapor-pressure residual strictly
below the tolerance `0.0005`, or is the `Tw`-update of a visited iterate
whose residual hit the tolerance boundary `0.0005` exactly. -/
theorem calc_wb_residual (fuel : ℕ) :
    ∀ Ed Tw sgn incr Tc P E2 Tw',
      wbVisits Tc P E2 Ed Tw sgn incr →
      calc_wb fuel Ed Tw Tc P E2 sgn incr = some Tw' →
      (|Ed| ≤ 0.0005 ∧ Tw' = Tw) ∨ |E2 - Eguess Tc P Tw'| < 0.0005 ∨
        ∃ Ed0 Tw0 sgn0 incr0, wbVisits Tc P E2 Ed0 Tw0 sgn0 incr0 ∧
          |E2 - Eguess Tc P Tw0| = 0.0005 ∧
          Tw' = Tw0 + wb_nextIncr (E2 - Eguess Tc P Tw0) sgn0 incr0 *
            wb_nextSign (E2 - Eguess Tc P Tw0) sgn0 := by
  induction fuel with
  | zero =>
    intro Ed Tw sgn incr Tc P E2 Tw' hv h
    rw [calc_wb_zero] at h
    by_cases h1 : |Ed| ≤ 0.0005
    · rw [if_pos h1] at h
      exact Or.inl ⟨h1, (Option.some_inj.mp h).symm⟩
    · rw [if_neg h1] at h
      exact absurd h (by simp)
  | succ f ih =>
    intro Ed Tw sgn incr Tc P E2 Tw' hv h
    rw [calc_wb_succ_upd] at h
    by_cases h1 : |Ed| ≤ 0.0005
    · rw [if_pos h1] at h
      exact Or.inl ⟨h1, (Option.some_inj.mp h).symm⟩
    · rw [if_neg h1] at h
      by_cases h2 : |E2 - Eguess Tc P Tw| < 0.0005
      · rw [if_pos h2] at h
        right; left
        rw [← (Option.some_inj.mp h)]
        exact h2
      · rw [if_neg h2] at h
        have hv2 := wbVisits.step Ed Tw sgn incr hv h1 h2
        rcases ih _ _ _ _ _ _ _ _ hv2 h with ⟨hle, heq⟩ | hlt | hex
        · right; right
          exact ⟨Ed, Tw, sgn, incr, hv, le_antisymm hle (not_lt.mp h2), heq⟩
        · exact Or.inr (Or.inl hlt)
        · exact Or.inr (Or.inr hex)

/-- Claim C1 counterexample: at `Tc = -0.0005`, `RH = 99.999 < 100`,
`P = 1 > 0`, the solver converges on its very first iteration at the initial
guess `Tw = 0` (the residual there is already below `0.0005`), so the
returned wet-bulb `0` is strictly greater than the dry-bulb `Tc`. -/
theorem claim1_counterexample :
    calc_sWB 1 (-1 / 2000) (99999 / 1000) 1 = some 0 ∧
      ¬ ((0 : ℝ) ≤ -1 / 2000) ∧ (0 : ℝ) < 1 ∧
      (0 : ℝ) ≤ 99999 / 1000 ∧ (99999 / 1000 : ℝ) < 100 := by
  have hq1 : ((17.67 : ℝ) * (-1 / 2000)) / (-1 / 2000 + 243.5) ≤ 0 := by norm_num
  have hq2 : -(37 / 1000000 : ℝ) ≤ (17.67 * (-1 / 2000)) / (-1 / 2000 + 243.5) := by
    rw [neg_le, ← neg_div]
    rw [div_le_iff₀ (by norm_num : (0 : ℝ) < -1 / 2000 + 243.5)]
    norm_num
  have ht1 : Real.exp ((17.67 * (-1 / 2000)) / (-1 / 2000 + 243.5)) ≤ 1 := by
    calc Real.exp ((17.67 * (-1 / 2000)) / (-1 / 2000 + 243.5)) ≤ Real.exp 0 :=
          Real.exp_le_exp.mpr hq1
      _ = 1 := Real.exp_zero
  have ht2 : 1 - 37 / 1000000 ≤ Real.exp ((17.67 * (-1 / 2000)) / (-1 / 2000 + 243.5)) := by
    have := Real.add_one_le_exp ((17.67 * (-1 / 2000)) / (-1 / 2000 + 243.5))
    linarith
  have hEg : Eguess (-1 / 2000) 1 0 = 6.112 + 33 / 100000000 := by
    unfold Eguess Ewguess
    norm_num [Real.exp_zero]
  refine ⟨?_, by norm_num, by norm_num, by norm_num, by norm_num⟩
  simp only [calc_sWB]
  rw [if_neg (by norm_num : ¬ ((99999 / 1000 : ℝ) ≤ 0))]
  rw [Td_eval (-1 / 2000) (99999 / 1000) (by norm_num) (by norm_num) (by norm_num)]
  simp only [Option.some_bind]
  rw [show (1 : ℕ) = 0 + 1 from rfl, calc_wb_succ]
  rw [if_neg (show ¬ (|(1 : ℝ)| ≤ 0.0005) by rw [abs_one]; norm_num)]
  have habs : |6.112 * Real.exp ((17.67 * (-1 / 2000)) / (-1 / 2000 + 243.5)) *
      (99999 / 1000) / 100 - Eguess (-1 / 2000) 1 0| < 0.0005 := by
    rw [hEg, abs_lt]
    constructor
    · nlinarith
    · nlinarith
  rw [if_pos habs]

/-- Claim C1, amended: the wet-bulb returned by `calc_sWB` need not be
`≤ Tc` even for `RH < 100` (it can overshoot the dry-bulb by a step while
meeting the vapor-pressure tolerance).  What the solver guarantees on any
returned value `Tw` is the residual bound: either
`|E2 - Eguess(Tw)| < 0.0005`, or the loop hit the tolerance boundary
`|E2 - Eguess| = 0.0005` exactly at one of its own visited iterates and
returned that iterate's `Tw`-update. -/
theorem claim1_theorem (fuel : ℕ) (Tc RH P Tw' : ℝ)
    (h : calc_sWB fuel Tc RH P = some Tw') :
    ∃ es V d, Td Tc (if RH ≤ 0 then 0 else RH) = some (es, V, d) ∧
      (|V - Eguess Tc P Tw'| < 0.0005 ∨
        ∃ Ed0 Tw0 sgn0 incr0, wbVisits Tc P V Ed0 Tw0 sgn0 incr0 ∧
          |V - Eguess Tc P Tw0| = 0.0005 ∧
          Tw' = Tw0 + wb_nextIncr (V - Eguess Tc P Tw0) sgn0 incr0 *
            wb_nextSign (V - Eguess Tc P Tw0) sgn0) := by
  simp only [calc_sWB] at h
  cases hTd : Td Tc (if RH ≤ 0 then 0 else RH) with
  | none =>
    rw [hTd] at h
    simp only [Option.none_bind] at h
    exact absurd h (by simp)
  | some t =>
    rw [hTd] at h
    simp only [Option.some_bind] at h
    obtain ⟨es, V, dd⟩ := t
    refine ⟨es, V, dd, rfl, ?_⟩
    rcases calc_wb_residual fuel 1 0 1 10 Tc P V Tw' wbVisits.init h
      with ⟨habs, -⟩ | hlt | hex
    · rw [abs_one] at habs
      norm_num at habs
    · exact Or.inl hlt
    · exact Or.inr hex

/-- Witness for claim C1 at `Tc = 0`, `RH = 100`, `P = 1`, fuel `1`, where
the solver returns `some 0` on the first iteration. -/
theorem claim1_witness :
    ∃ es V d, Td 0 (if (100 : ℝ) ≤ 0 then 0 else 100) = some (es, V, d) ∧
      (|V - Eguess 0 1 0| < 0.0005 ∨
        ∃ Ed0 Tw0 sgn0 incr0, wbVisits 0 1 V Ed0 Tw0 sgn0 incr0 ∧
          |V - Eguess 0 1 Tw0| = 0.0005 ∧
          (0 : ℝ) = Tw0 + wb_nextIncr (V - Eguess 0 1 Tw0) sgn0 incr0 *
            wb_nextSign (V - Eguess 0 1 Tw0) sgn0) := by
  refine claim1_theorem 1 0 100 1 0 ?_
  have hE : 6.112 * Real.exp ((17.67 * (0 : ℝ)) / (0 + 243.5)) * 100 / 100 -
      Eguess 0 1 0 = 0 := by
    unfold Eguess Ewguess
    norm_num
  simp only [calc_sWB]
  rw [if_neg (by norm_num : ¬ ((100 : ℝ) ≤ 0))]
  rw [Td_eval 0 100 (by norm_num) (by norm_num) (by norm_num)]
  simp only [Option.some_bind]
  rw [show (1 : ℕ) = 0 + 1 from rfl, calc_wb_succ]
  rw [if_neg (show ¬ (|(1 : ℝ)| ≤ 0.0005) by rw [abs_one]; norm_num)]
  rw [if_pos (show |6.112 * Real.exp ((17.67 * (0 : ℝ)) / (0 + 243.5)) * 100 / 100 -
      Eguess 0 1 0| < 0.0005 by rw [hE, abs_zero]; norm_num)]

/-- Claim C7: `heat_index` applies at most one of the three correction
regimes to the NOAA regression value, in the claimed priority order
(low-humidity band, then high-humidity band, then the low-temperature
replacement), and the three bands are pairwise disjoint. -/
theorem claim7_theorem (t RH : ℝ) :
    heat_index t RH = heat_index_claim t RH ∧
      ¬(lowHumidityBand t RH ∧ highHumidityBand t RH) ∧
      ¬(lowHumidityBand t RH ∧ lowTempBand t) ∧
      ¬(highHumidityBand t RH ∧ lowTempBand t) := by
  simp only [lowHumidityBand, highHumidityBand, lowTempBand]
  refine ⟨?_, ?_, ?_, ?_⟩
  · by_cases h1 : RH < 13 ∧ 80 < conv_C2F t ∧ conv_C2F t < 112
    · obtain ⟨h1a, h1b, h1c⟩ := h1
      have hn3 : ¬ (conv_C2F t < 80) := not_lt.mpr (le_of_lt h1b)
      simp only [heat_index, heat_index_claim, gt_iff_lt]
      simp only [h1a, h1b, h1c, hn3, true_and, and_true, if_true, if_false,
        ite_true, ite_false]
      unfold conv_F2C
      ring
    · by_cases h2 : 85 < RH ∧ 80 < conv_C2F t ∧ conv_C2F t < 87
      · obtain ⟨h2a, h2b, h2c⟩ := h2
        have hA : ¬ (RH < 13) := by linarith
        have hn3 : ¬ (conv_C2F t < 80) := not_lt.mpr (le_of_lt h2b)
        simp only [heat_index, heat_index_claim, gt_iff_lt]
        simp only [h2a, h2b, h2c, hA, hn3, true_and, and_true, false_and,
          and_false, if_true, if_false, ite_true, ite_false]
      · by_cases h3 : conv_C2F t < 80
        · have hB : ¬ (80 < conv_C2F t) := not_lt.mpr (le_of_lt h3)
          simp only [heat_index, heat_index_claim, gt_iff_lt]
          simp only [h3, hB, true_and, and_true, false_and, and_false,
            if_true, if_false, ite_true, ite_false]
        · simp only [heat_index, heat_index_claim, gt_iff_lt]
          simp only [h1, h2, h3, if_true, if_false, ite_true, ite_false,
            add_zero]
  · rintro ⟨⟨ha, -, -⟩, hb, -, -⟩
    linarith
  · rintro ⟨⟨-, hb, -⟩, hc⟩
    linarith
  · rintro ⟨⟨-, hb, -⟩, hc⟩
    linarith

/-- Claim C10: adjusting a relative humidity from `T1` to `T2` and back is
the identity away from the poles `-243.12`, because the two exponential
factors are exact reciprocals. -/
theorem claim10_theorem (RH T1 T2 : ℝ) (h1 : T1 ≠ -243.12) (h2 : T2 ≠ -243.12) :
    humidity_adjust_temp (humidity_adjust_temp RH T1 T2) T2 T1 = RH := by
  have d1 : (243.12 : ℝ) + T1 ≠ 0 := by
    intro hc; apply h1; linarith
  have d2 : (243.12 : ℝ) + T2 ≠ 0 := by
    intro hc; apply h2; linarith
  unfold humidity_adjust_temp
  rw [mul_assoc, ← Real.exp_add]
  have hz : 4283.78 * (T1 - T2) / (243.12 + T1) / (243.12 + T2) +
      4283.78 * (T2 - T1) / (243.12 + T2) / (243.12 + T1) = 0 := by
    field_simp
    ring
  rw [hz, Real.exp_zero, mul_one]

/-- Witness for claim C10 at `RH = 50`, `T1 = 0`, `T2 = 10`. -/
theorem claim10_witness :
    humidity_adjust_temp (humidity_adjust_temp 50 0 10) 10 0 = 50 :=
  claim10_theorem 50 0 10 (by norm_num) (by norm_num)

end Hygrometry
